import Mathlib

/-!
# Task Tracker CLI: the menu loop of `dist/index.js`

A shallow embedding of the entry module `src/Task Tracker/dist/index.js`:
the welcome banner, the `mainMenu` loop with its `choices` and its
`commands` dispatch table, and the trailing `mainMenu().catch(...)`.

The command handlers are imported from `./commands/*.js`; the loop only
calls them.  They are therefore a parameter of the model (`Env`): a handler
is run in some state of the outside world (task file, terminal, user) and
either returns, throws, or never settles, leaving its own effects behind.
Console output and calls are recorded as a list of `Event`s, oldest first.
-/

namespace TaskTracker

/-! ## Data -/

/-- The nine default exports imported at lines 4-12, by their local names. -/
inductive Handler
  | addTask
  | listTasks
  | completeTask
  | deleteTask
  | showStatistics
  | searchTasks
  | exportTasks
  | listByDueDate
  | manageTags
  deriving DecidableEq, Repr

/-- Values a promise can reject with.  `mainMenu` never inspects them; the
kinds are the ones the specification names, plus the `TypeError` of calling
`undefined` and a catch-all. -/
inductive Err
  | notFound
  | validationError
  | ioError
  | typeError
  | other (msg : String)
  deriving DecidableEq, Repr

/-- One entry of the `choices` array of the list prompt (lines 29-38). -/
structure Choice where
  name : String
  value : String
  deriving DecidableEq, Repr

/-- The array literal `choices` of lines 28-39, in source order. -/
def choices : List Choice :=
  [ ⟨"Add a new task", "add"⟩,
    ⟨"List all tasks", "list"⟩,
    ⟨"Mark a task as complete", "complete"⟩,
    ⟨"Delete a task", "delete"⟩,
    ⟨"Show statistics", "stats"⟩,
    ⟨"Search tasks", "search"⟩,
    ⟨"Export tasks to CSV", "export"⟩,
    ⟨"List tasks by due date", "due"⟩,
    ⟨"Manage tags", "tags"⟩,
    ⟨"Exit", "exit"⟩ ]

/-- The values the list prompt can resolve to: the `value` fields of `choices`. -/
def menuValues : List String := choices.map Choice.value

/-- The object literal `commands` of lines 48-58 as its own-property list. -/
def commandsTable : List (String × Handler) :=
  [ ("add", .addTask),
    ("list", .listTasks),
    ("complete", .completeTask),
    ("delete", .deleteTask),
    ("stats", .showStatistics),
    ("search", .searchTasks),
    ("export", .exportTasks),
    ("due", .listByDueDate),
    ("tags", .manageTags) ]

/-- The property read `commands[action]` of line 59; `none` is `undefined`. -/
def commands (action : String) : Option Handler := commandsTable.lookup action

/-- The keys of the dispatch table. -/
def commandKeys : List String := commandsTable.map Prod.fst

/-- How an awaited `inquirer.prompt` of the menu settles.  A list prompt
resolves to the `value` of the entry of `choices` the user picked, so a
selection is an index into the ten entries of `choices`. -/
inductive PromptResult
  | picked (i : Fin 10)
  | failed (e : Err)
  deriving DecidableEq, Repr

/-- The string bound to `action` at line 23 for the picked entry. -/
def actionOf (i : Fin 10) : String := (choices.get (Fin.cast (by decide) i)).value

/-- How the promise returned by a handler settles. -/
inductive HandlerResult
  | returned
  | threw (e : Err)
  | pending
  deriving DecidableEq, Repr

/-- What running one handler does: its own effects in order (prints, prompts,
storage reads and writes, as opaque labels), the state of the outside world it
leaves, and how its promise settles. -/
structure HandlerRun (σ : Type) where
  effects : List String
  world : σ
  result : HandlerResult

/-- The imported handlers, as functions of the state of the outside world. -/
abbrev Env (σ : Type) := Handler → σ → HandlerRun σ

/-- Observable events of a run, in program order. -/
inductive Event
  /-- Line 14: the welcome banner is logged. -/
  | banner
  /-- Line 23: `inquirer.prompt` is called, the menu is presented. -/
  | prompt
  /-- Line 23: the prompt resolved and `action` is bound. -/
  | answer (action : String)
  /-- Line 44: `Goodbye!` is logged. -/
  | goodbye
  /-- Line 59: the handler is called. -/
  | handlerStart (h : Handler)
  /-- Something the running handler does. -/
  | handlerEffect (h : Handler) (what : String)
  /-- Line 59: the awaited promise of the handler is fulfilled. -/
  | handlerEnd (h : Handler)
  /-- Line 64: the error is printed with `console.error`. -/
  | errorPrinted (e : Err)
  /-- Line 65: `process.exit(code)`. -/
  | processExit (code : Nat)
  deriving DecidableEq, Repr

/-- The two states of the menu loop named by the specification, `running` and
`exited`, and the two other ways control can leave the `while` body: the
promise of `mainMenu` rejects, or the awaited handler never settles. -/
inductive LoopState
  | running
  | exited
  | rejected (e : Err)
  | suspended (h : Handler)
  deriving DecidableEq, Repr

/-- One pass through the body of `while (true)`. -/
structure Pass (σ : Type) where
  events : List Event
  world : σ
  state : LoopState

/-- A run of `mainMenu` on a finite script of menu prompt results. -/
structure Run (σ : Type) where
  events : List Event
  world : σ
  state : LoopState
  /-- Prompt results that were never read. -/
  unread : List PromptResult

/-- A run of the whole module. -/
structure ProgramRun (σ : Type) where
  events : List Event
  world : σ
  /-- Exit status of the process, when it terminates. -/
  exitCode : Option Nat
  unread : List PromptResult

/-! ## The program -/

/-- Lines 23-59, one iteration, for a prompt that settles with `r`. -/
def loopBody {σ : Type} (env : Env σ) (w : σ) (r : PromptResult) : Pass σ :=
  match r with
  | .failed e => ⟨[.prompt], w, .rejected e⟩
  | .picked i =>
    let action := actionOf i
    if action = "exit" then
      ⟨[.prompt, .answer action, .goodbye], w, .exited⟩
    else
      match commands action with
      | none => ⟨[.prompt, .answer action], w, .rejected .typeError⟩
      | some h =>
        let hr := env h w
        let pre := [Event.prompt, .answer action, .handlerStart h] ++
          hr.effects.map (Event.handlerEffect h)
        match hr.result with
        | .returned => ⟨pre ++ [.handlerEnd h], hr.world, .running⟩
        | .threw e => ⟨pre, hr.world, .rejected e⟩
        | .pending => ⟨pre, hr.world, .suspended h⟩

/-- Lines 21-61: `mainMenu`.  The script lists how the successive menu prompts
settle; when it is used up the loop stays `running`, suspended at a prompt
that has been presented and not answered. -/
def mainMenu {σ : Type} (env : Env σ) : σ → List PromptResult → Run σ
  | w, [] => ⟨[.prompt], w, .running, []⟩
  | w, r :: rest =>
    let p := loopBody env w r
    match p.state with
    | .running =>
      let run := mainMenu env p.world rest
      ⟨p.events ++ run.events, run.world, run.state, run.unread⟩
    | st => ⟨p.events, p.world, st, rest⟩

/-- The module body: the banner (line 14), then `mainMenu().catch(...)`
(lines 63-66).  A fulfilled `mainMenu` leaves nothing to do and the process
ends with the default status 0; a rejection is printed and followed by
`process.exit(1)`; otherwise the process is still waiting. -/
def program {σ : Type} (env : Env σ) (w : σ) (script : List PromptResult) : ProgramRun σ :=
  let run := mainMenu env w script
  match run.state with
  | .exited => ⟨Event.banner :: run.events, run.world, some 0, run.unread⟩
  | .rejected e =>
    ⟨Event.banner :: run.events ++ [.errorPrinted e, .processExit 1], run.world, some 1, run.unread⟩
  | _ => ⟨Event.banner :: run.events, run.world, none, run.unread⟩

/-! ## Observations on traces -/

/-- The handlers called, in call order. -/
def invocations (es : List Event) : List Handler :=
  es.filterMap fun e => match e with
    | .handlerStart h => some h
    | _ => none

/-- The number of times the menu was presented. -/
def promptCount (es : List Event) : Nat := es.count .prompt

/-- A completed turn of the loop: the selection, the handler it was mapped to
and what the handler did. -/
structure Round where
  action : String
  handler : Handler
  effects : List String

/-- The events of a completed turn. -/
def Round.events (r : Round) : List Event :=
  [.prompt, .answer r.action, .handlerStart r.handler] ++
    r.effects.map (Event.handlerEffect r.handler) ++ [.handlerEnd r.handler]

/-- For each return of a handler in a trace, the event that comes right after
it (`none` when the trace ends there). -/
def afterReturns : List Event → List (Option Event)
  | [] => []
  | .handlerEnd _ :: es => es.head? :: afterReturns es
  | _ :: es => afterReturns es

/-- An environment in which `deleteTask` throws a not-found error, `addTask`
throws a validation error, and every other handler prints one line and returns. -/
def strictEnv : Env Unit := fun h _ =>
  match h with
  | .deleteTask => ⟨["no such task"], (), .threw .notFound⟩
  | .addTask => ⟨["title required"], (), .threw .validationError⟩
  | _ => ⟨["done"], (), .returned⟩

/-- An environment in which every handler prints one line and returns. -/
def quietEnv : Env Unit := fun _ _ => ⟨["done"], (), .returned⟩

/-! ## Basic facts -/

theorem commands_of_ne_exit (i : Fin 10) (hi : actionOf i ≠ "exit") :
    ∃ h, commands (actionOf i) = some h := by
  have key : ∀ j : Fin 10, actionOf j ≠ "exit" → (commands (actionOf j)).isSome = true := by
    decide
  exact Option.isSome_iff_exists.mp (key i hi)

theorem mainMenu_nil {σ : Type} (env : Env σ) (w : σ) :
    mainMenu env w [] = ⟨[.prompt], w, .running, []⟩ := rfl

theorem mainMenu_cons_running {σ : Type} (env : Env σ) (w : σ) (r : PromptResult)
    (rest : List PromptResult) (h : (loopBody env w r).state = .running) :
    mainMenu env w (r :: rest) =
      ⟨(loopBody env w r).events ++ (mainMenu env (loopBody env w r).world rest).events,
       (mainMenu env (loopBody env w r).world rest).world,
       (mainMenu env (loopBody env w r).world rest).state,
       (mainMenu env (loopBody env w r).world rest).unread⟩ := by
  simp only [mainMenu, h]

theorem mainMenu_cons_stopped {σ : Type} (env : Env σ) (w : σ) (r : PromptResult)
    (rest : List PromptResult) (h : (loopBody env w r).state ≠ .running) :
    mainMenu env w (r :: rest) =
      ⟨(loopBody env w r).events, (loopBody env w r).world, (loopBody env w r).state, rest⟩ := by
  cases hs : (loopBody env w r).state with
  | running => exact absurd hs h
  | exited => simp only [mainMenu, hs]
  | rejected e => simp only [mainMenu, hs]
  | suspended k => simp only [mainMenu, hs]

/-- The five ways one pass of the loop body can go. -/
theorem loopBody_cases {σ : Type} (env : Env σ) (w : σ) (r : PromptResult) :
    (∃ e, r = .failed e ∧ loopBody env w r = ⟨[.prompt], w, .rejected e⟩) ∨
    (∃ i, r = .picked i ∧ actionOf i = "exit" ∧
      loopBody env w r = ⟨[.prompt, .answer "exit", .goodbye], w, .exited⟩) ∨
    (∃ i h, r = .picked i ∧ actionOf i ≠ "exit" ∧ commands (actionOf i) = some h ∧
      (env h w).result = .returned ∧
      loopBody env w r =
        ⟨[.prompt, .answer (actionOf i), .handlerStart h] ++
          (env h w).effects.map (Event.handlerEffect h) ++ [.handlerEnd h],
         (env h w).world, .running⟩) ∨
    (∃ i h e, r = .picked i ∧ actionOf i ≠ "exit" ∧ commands (actionOf i) = some h ∧
      (env h w).result = .threw e ∧
      loopBody env w r =
        ⟨[.prompt, .answer (actionOf i), .handlerStart h] ++
          (env h w).effects.map (Event.handlerEffect h), (env h w).world, .rejected e⟩) ∨
    (∃ i h, r = .picked i ∧ actionOf i ≠ "exit" ∧ commands (actionOf i) = some h ∧
      (env h w).result = .pending ∧
      loopBody env w r =
        ⟨[.prompt, .answer (actionOf i), .handlerStart h] ++
          (env h w).effects.map (Event.handlerEffect h), (env h w).world, .suspended h⟩) := by
  cases r with
  | failed e => exact Or.inl ⟨e, rfl, rfl⟩
  | picked i =>
    by_cases hx : actionOf i = "exit"
    · refine Or.inr (Or.inl ⟨i, rfl, hx, ?_⟩)
      simp [loopBody, hx]
    · obtain ⟨h, hh⟩ := commands_of_ne_exit i hx
      cases hres : (env h w).result with
      | returned =>
        refine Or.inr (Or.inr (Or.inl ⟨i, h, rfl, hx, hh, hres, ?_⟩))
        simp [loopBody, hx, hh, hres]
      | threw e =>
        refine Or.inr (Or.inr (Or.inr (Or.inl ⟨i, h, e, rfl, hx, hh, hres, ?_⟩)))
        simp [loopBody, hx, hh, hres]
      | pending =>
        refine Or.inr (Or.inr (Or.inr (Or.inr ⟨i, h, rfl, hx, hh, hres, ?_⟩)))
        simp [loopBody, hx, hh, hres]

theorem mainMenu_events_ne_nil {σ : Type} (env : Env σ) (w : σ) (script : List PromptResult) :
    (mainMenu env w script).events ≠ [] := by
  cases script with
  | nil => simp [mainMenu_nil]
  | cons r rest =>
    by_cases hs : (loopBody env w r).state = .running
    · rw [mainMenu_cons_running env w r rest hs]
      rcases loopBody_cases env w r with ⟨e, -, hb⟩ | ⟨i, -, -, hb⟩ | ⟨i, h, -, -, -, -, hb⟩ |
        ⟨i, h, e, -, -, -, -, hb⟩ | ⟨i, h, -, -, -, -, hb⟩ <;> simp [hb]
    · rw [mainMenu_cons_stopped env w r rest hs]
      rcases loopBody_cases env w r with ⟨e, -, hb⟩ | ⟨i, -, -, hb⟩ | ⟨i, h, -, -, -, -, hb⟩ |
        ⟨i, h, e, -, -, -, -, hb⟩ | ⟨i, h, -, -, -, -, hb⟩ <;> simp [hb]

/-- A run that has stopped does not depend on what is left of the script. -/
theorem mainMenu_append_stopped {σ : Type} (env : Env σ) (post : List PromptResult) :
    ∀ (pre : List PromptResult) (w : σ), (mainMenu env w pre).state ≠ .running →
      mainMenu env w (pre ++ post) =
        ⟨(mainMenu env w pre).events, (mainMenu env w pre).world, (mainMenu env w pre).state,
         (mainMenu env w pre).unread ++ post⟩ := by
  intro pre
  induction pre with
  | nil => intro w h; simp [mainMenu_nil] at h
  | cons r pre ih =>
    intro w h
    by_cases hs : (loopBody env w r).state = .running
    · rw [mainMenu_cons_running env w r pre hs] at h ⊢
      rw [List.cons_append, mainMenu_cons_running env w r (pre ++ post) hs]
      simp only at h
      rw [ih _ h]
    · rw [mainMenu_cons_stopped env w r pre hs]
      rw [List.cons_append, mainMenu_cons_stopped env w r (pre ++ post) hs]

/-- A run that used up its script is waiting at a prompt; given more script it
goes on from there, the pending prompt being the first one of the continuation. -/
theorem mainMenu_append_running {σ : Type} (env : Env σ) (post : List PromptResult) :
    ∀ (pre : List PromptResult) (w : σ), (mainMenu env w pre).state = .running →
      mainMenu env w (pre ++ post) =
        ⟨(mainMenu env w pre).events.dropLast ++
           (mainMenu env (mainMenu env w pre).world post).events,
         (mainMenu env (mainMenu env w pre).world post).world,
         (mainMenu env (mainMenu env w pre).world post).state,
         (mainMenu env (mainMenu env w pre).world post).unread⟩ := by
  intro pre
  induction pre with
  | nil => intro w _; simp [mainMenu_nil]
  | cons r pre ih =>
    intro w h
    by_cases hs : (loopBody env w r).state = .running
    · rw [mainMenu_cons_running env w r pre hs] at h ⊢
      rw [List.cons_append, mainMenu_cons_running env w r (pre ++ post) hs]
      simp only at h
      rw [ih _ h]
      simp only [List.dropLast_append_of_ne_nil _ (mainMenu_events_ne_nil env _ pre),
        List.append_assoc]
    · rw [mainMenu_cons_stopped env w r pre hs] at h
      exact absurd h hs

/-- A running loop has read its whole script and its last event is the pending prompt. -/
theorem mainMenu_running {σ : Type} (env : Env σ) :
    ∀ (script : List PromptResult) (w : σ), (mainMenu env w script).state = .running →
      (mainMenu env w script).unread = [] ∧
      (mainMenu env w script).events = (mainMenu env w script).events.dropLast ++ [.prompt] := by
  intro script
  induction script with
  | nil => intro w _; simp [mainMenu_nil]
  | cons r rest ih =>
    intro w h
    by_cases hs : (loopBody env w r).state = .running
    · rw [mainMenu_cons_running env w r rest hs] at h ⊢
      simp only at h
      obtain ⟨h1, h2⟩ := ih _ h
      refine ⟨h1, ?_⟩
      simp only [List.dropLast_append_of_ne_nil _ (mainMenu_events_ne_nil env _ rest),
        List.append_assoc]
      rw [← h2]
    · rw [mainMenu_cons_stopped env w r rest hs] at h
      exact absurd h hs

/-- A loop that has stopped stopped in the pass of the last prompt result it read. -/
theorem mainMenu_stopped_decomp {σ : Type} (env : Env σ) :
    ∀ (script : List PromptResult) (w : σ), (mainMenu env w script).state ≠ .running →
      ∃ used r, script = used ++ r :: (mainMenu env w script).unread ∧
        (mainMenu env w used).state = .running ∧
        (loopBody env (mainMenu env w used).world r).state = (mainMenu env w script).state ∧
        (loopBody env (mainMenu env w used).world r).world = (mainMenu env w script).world ∧
        (mainMenu env w script).events =
          (mainMenu env w used).events.dropLast ++
            (loopBody env (mainMenu env w used).world r).events := by
  intro script
  induction script with
  | nil => intro w h; simp [mainMenu_nil] at h
  | cons r rest ih =>
    intro w h
    by_cases hs : (loopBody env w r).state = .running
    · rw [mainMenu_cons_running env w r rest hs] at h ⊢
      simp only at h ⊢
      obtain ⟨used, r2, h1, h2, h3, h4, h5⟩ := ih _ h
      refine ⟨r :: used, r2, ?_, ?_, ?_, ?_, ?_⟩
      · rw [List.cons_append, ← h1]
      · rw [mainMenu_cons_running env w r used hs]; exact h2
      · rw [mainMenu_cons_running env w r used hs]; exact h3
      · rw [mainMenu_cons_running env w r used hs]; exact h4
      · rw [mainMenu_cons_running env w r used hs]
        simp only [List.dropLast_append_of_ne_nil _ (mainMenu_events_ne_nil env _ used),
          List.append_assoc]
        rw [h5]
    · rw [mainMenu_cons_stopped env w r rest hs]
      exact ⟨[], r, rfl, rfl, rfl, rfl, by simp [mainMenu_nil]⟩

theorem invocations_append (a b : List Event) :
    invocations (a ++ b) = invocations a ++ invocations b := by
  simp [invocations, List.filterMap_append]

theorem invocations_effects (h : Handler) (effs : List String) :
    invocations (effs.map (Event.handlerEffect h)) = [] := by
  induction effs with
  | nil => rfl
  | cons x xs ih => simp [invocations]

theorem promptCount_append (a b : List Event) :
    promptCount (a ++ b) = promptCount a + promptCount b := by
  simp [promptCount, List.count_append]

theorem promptCount_effects (h : Handler) (effs : List String) :
    promptCount (effs.map (Event.handlerEffect h)) = 0 := by
  induction effs with
  | nil => rfl
  | cons x xs ih => simpa [promptCount] using ih

theorem invocations_started (h : Handler) (a : String) (effs : List String) :
    invocations ([.prompt, .answer a, .handlerStart h] ++ effs.map (Event.handlerEffect h)) =
      [h] := by
  rw [invocations_append, invocations_effects]
  rfl

theorem invocations_round (h : Handler) (a : String) (effs : List String) :
    invocations ([.prompt, .answer a, .handlerStart h] ++ effs.map (Event.handlerEffect h) ++
      [.handlerEnd h]) = [h] := by
  rw [invocations_append, invocations_started]
  rfl

theorem promptCount_started (h : Handler) (a : String) (effs : List String) :
    promptCount ([.prompt, .answer a, .handlerStart h] ++ effs.map (Event.handlerEffect h)) =
      1 := by
  rw [promptCount_append, promptCount_effects]
  rfl

theorem promptCount_round (h : Handler) (a : String) (effs : List String) :
    promptCount ([.prompt, .answer a, .handlerStart h] ++ effs.map (Event.handlerEffect h) ++
      [.handlerEnd h]) = 1 := by
  rw [promptCount_append, promptCount_started]
  rfl

theorem loopBody_exited {σ : Type} (env : Env σ) (w : σ) (r : PromptResult)
    (h : (loopBody env w r).state = .exited) : ∃ i, r = .picked i ∧ actionOf i = "exit" := by
  rcases loopBody_cases env w r with ⟨e, -, hb⟩ | ⟨i, hr, hx, -⟩ | ⟨i, k, -, -, -, -, hb⟩ |
    ⟨i, k, e, -, -, -, -, hb⟩ | ⟨i, k, -, -, -, -, hb⟩
  · rw [hb] at h; cases h
  · exact ⟨i, hr, hx⟩
  · rw [hb] at h; cases h
  · rw [hb] at h; cases h
  · rw [hb] at h; cases h

theorem loopBody_exit {σ : Type} (env : Env σ) (w : σ) (i : Fin 10) (hx : actionOf i = "exit") :
    loopBody env w (.picked i) = ⟨[.prompt, .answer "exit", .goodbye], w, .exited⟩ := by
  simp [loopBody, hx]

theorem loopBody_returned {σ : Type} (env : Env σ) (w : σ) (i : Fin 10) (h : Handler)
    (hx : actionOf i ≠ "exit") (hh : commands (actionOf i) = some h)
    (hres : (env h w).result = .returned) :
    loopBody env w (.picked i) =
      ⟨[.prompt, .answer (actionOf i), .handlerStart h] ++
        (env h w).effects.map (Event.handlerEffect h) ++ [.handlerEnd h],
       (env h w).world, .running⟩ := by
  simp [loopBody, hx, hh, hres]

theorem loopBody_threw {σ : Type} (env : Env σ) (w : σ) (i : Fin 10) (h : Handler) (e : Err)
    (hx : actionOf i ≠ "exit") (hh : commands (actionOf i) = some h)
    (hres : (env h w).result = .threw e) :
    loopBody env w (.picked i) =
      ⟨[.prompt, .answer (actionOf i), .handlerStart h] ++
        (env h w).effects.map (Event.handlerEffect h), (env h w).world, .rejected e⟩ := by
  simp [loopBody, hx, hh, hres]

/-- One prompt per prompt result read (plus the pending one while the loop is
running), and at most one handler call per prompt result read. -/
theorem mainMenu_counts {σ : Type} (env : Env σ) :
    ∀ (script : List PromptResult) (w : σ),
      promptCount (mainMenu env w script).events + (mainMenu env w script).unread.length =
          script.length + (if (mainMenu env w script).state = .running then 1 else 0) ∧
        (invocations (mainMenu env w script).events).length +
          (mainMenu env w script).unread.length ≤ script.length := by
  intro script
  induction script with
  | nil => intro w; rw [mainMenu_nil]; exact ⟨rfl, Nat.le_refl _⟩
  | cons r rest ih =>
    intro w
    rcases loopBody_cases env w r with ⟨e, -, hb⟩ | ⟨i, -, -, hb⟩ | ⟨i, h, -, -, -, -, hb⟩ |
      ⟨i, h, e, -, -, -, -, hb⟩ | ⟨i, h, -, -, -, -, hb⟩
    · have hs : (loopBody env w r).state ≠ .running := by simp [hb]
      rw [mainMenu_cons_stopped env w r rest hs, hb]
      simp [promptCount, invocations]
      omega
    · have hs : (loopBody env w r).state ≠ .running := by simp [hb]
      rw [mainMenu_cons_stopped env w r rest hs, hb]
      simp [promptCount, invocations]
      omega
    · have hs : (loopBody env w r).state = .running := by simp [hb]
      rw [mainMenu_cons_running env w r rest hs, hb]
      obtain ⟨ih1, ih2⟩ := ih (env h w).world
      refine ⟨?_, ?_⟩
      · show promptCount (_ ++ _) + _ = _
        rw [promptCount_append, promptCount_round, List.length_cons]
        simp only at ih1 ⊢
        omega
      · show (invocations (_ ++ _)).length + _ ≤ _
        rw [invocations_append, invocations_round, List.length_cons]
        simp only [List.length_append, List.length_singleton] at ih2 ⊢
        omega
    · have hs : (loopBody env w r).state ≠ .running := by simp [hb]
      rw [mainMenu_cons_stopped env w r rest hs, hb]
      refine ⟨?_, ?_⟩
      · show promptCount _ + _ = _
        rw [promptCount_started]
        simp
        omega
      · show (invocations _).length + _ ≤ _
        rw [invocations_started]
        simp
        omega
    · have hs : (loopBody env w r).state ≠ .running := by simp [hb]
      rw [mainMenu_cons_stopped env w r rest hs, hb]
      refine ⟨?_, ?_⟩
      · show promptCount _ + _ = _
        rw [promptCount_started]
        simp
        omega
      · show (invocations _).length + _ ≤ _
        rw [invocations_started]
        simp
        omega

theorem program_exited {σ : Type} (env : Env σ) (w : σ) (script : List PromptResult)
    (h : (mainMenu env w script).state = .exited) :
    program env w script =
      ⟨Event.banner :: (mainMenu env w script).events, (mainMenu env w script).world, some 0,
       (mainMenu env w script).unread⟩ := by
  simp only [program, h]

theorem program_rejected {σ : Type} (env : Env σ) (w : σ) (script : List PromptResult) (e : Err)
    (h : (mainMenu env w script).state = .rejected e) :
    program env w script =
      ⟨Event.banner :: (mainMenu env w script).events ++ [.errorPrinted e, .processExit 1],
       (mainMenu env w script).world, some 1, (mainMenu env w script).unread⟩ := by
  simp only [program, h]

theorem program_running {σ : Type} (env : Env σ) (w : σ) (script : List PromptResult)
    (h : (mainMenu env w script).state = .running) :
    program env w script =
      ⟨Event.banner :: (mainMenu env w script).events, (mainMenu env w script).world, none,
       (mainMenu env w script).unread⟩ := by
  simp only [program, h]

theorem program_suspended {σ : Type} (env : Env σ) (w : σ) (script : List PromptResult)
    (k : Handler) (h : (mainMenu env w script).state = .suspended k) :
    program env w script =
      ⟨Event.banner :: (mainMenu env w script).events, (mainMenu env w script).world, none,
       (mainMenu env w script).unread⟩ := by
  simp only [program, h]

/-- Where the banner and the goodbye line can occur in a trace of `mainMenu`. -/
theorem mainMenu_census {σ : Type} (env : Env σ) :
    ∀ (script : List PromptResult) (w : σ),
      List.count Event.goodbye (mainMenu env w script).events =
          (if (mainMenu env w script).state = .exited then 1 else 0) ∧
        Event.banner ∉ (mainMenu env w script).events ∧
        (mainMenu env w script).events.head? = some .prompt ∧
        ((mainMenu env w script).state = .exited →
          (mainMenu env w script).events.getLast? = some .goodbye) := by
  intro script
  induction script with
  | nil => intro w; rw [mainMenu_nil]; simp
  | cons r rest ih =>
    intro w
    rcases loopBody_cases env w r with ⟨e, -, hb⟩ | ⟨i, -, -, hb⟩ | ⟨i, h, -, -, -, -, hb⟩ |
      ⟨i, h, e, -, -, -, -, hb⟩ | ⟨i, h, -, -, -, -, hb⟩
    · have hs : (loopBody env w r).state ≠ .running := by simp [hb]
      rw [mainMenu_cons_stopped env w r rest hs, hb]
      simp
    · have hs : (loopBody env w r).state ≠ .running := by simp [hb]
      rw [mainMenu_cons_stopped env w r rest hs, hb]
      simp
    · have hs : (loopBody env w r).state = .running := by simp [hb]
      rw [mainMenu_cons_running env w r rest hs, hb]
      obtain ⟨ih1, ih2, -, ih4⟩ := ih (env h w).world
      have hne := mainMenu_events_ne_nil env (env h w).world rest
      refine ⟨?_, ?_, ?_, ?_⟩
      · show List.count _ (_ ++ _) = _
        rw [List.count_append, ih1]
        have : List.count Event.goodbye
            ([Event.prompt, .answer (actionOf i), .handlerStart h] ++
              (env h w).effects.map (Event.handlerEffect h) ++ [.handlerEnd h]) = 0 :=
          List.count_eq_zero.mpr (by simp)
        rw [this, Nat.zero_add]
      · show _ ∉ _ ++ _
        rw [List.mem_append]
        rintro (hm | hm)
        · simp at hm
        · exact ih2 hm
      · simp
      · intro hex
        show List.getLast? (_ ++ _) = _
        rw [List.getLast?_append_of_ne_nil _ hne]
        exact ih4 hex
    · have hs : (loopBody env w r).state ≠ .running := by simp [hb]
      rw [mainMenu_cons_stopped env w r rest hs, hb]
      refine ⟨?_, ?_, ?_, ?_⟩
      · exact List.count_eq_zero.mpr (by simp)
      · simp
      · simp
      · intro hex; cases hex
    · have hs : (loopBody env w r).state ≠ .running := by simp [hb]
      rw [mainMenu_cons_stopped env w r rest hs, hb]
      refine ⟨?_, ?_, ?_, ?_⟩
      · exact List.count_eq_zero.mpr (by simp)
      · simp
      · simp
      · intro hex; cases hex

theorem afterReturns_started (h : Handler) (a : String) (effs : List String)
    (tl : List Event) :
    afterReturns ([.prompt, .answer a, .handlerStart h] ++
      effs.map (Event.handlerEffect h) ++ tl) = afterReturns tl := by
  show afterReturns (effs.map (Event.handlerEffect h) ++ tl) = afterReturns tl
  induction effs with
  | nil => rfl
  | cons x xs ih => exact ih

/-- In a trace of `mainMenu` the return of a handler is directly followed by
the next prompt. -/
theorem mainMenu_afterReturns {σ : Type} (env : Env σ) :
    ∀ (script : List PromptResult) (w : σ),
      ∀ x ∈ afterReturns (mainMenu env w script).events, x = some Event.prompt := by
  intro script
  induction script with
  | nil => intro w x hx; rw [mainMenu_nil] at hx; simp [afterReturns] at hx
  | cons r rest ih =>
    intro w x hx
    rcases loopBody_cases env w r with ⟨e, -, hb⟩ | ⟨i, -, -, hb⟩ | ⟨i, h, -, -, -, -, hb⟩ |
      ⟨i, h, e, -, -, -, -, hb⟩ | ⟨i, h, -, -, -, -, hb⟩
    · have hs : (loopBody env w r).state ≠ .running := by simp [hb]
      rw [mainMenu_cons_stopped env w r rest hs, hb] at hx
      simp [afterReturns] at hx
    · have hs : (loopBody env w r).state ≠ .running := by simp [hb]
      rw [mainMenu_cons_stopped env w r rest hs, hb] at hx
      simp [afterReturns] at hx
    · have hs : (loopBody env w r).state = .running := by simp [hb]
      rw [mainMenu_cons_running env w r rest hs, hb] at hx
      have hx2 : x ∈ afterReturns
          ([Event.prompt, .answer (actionOf i), .handlerStart h] ++
            (env h w).effects.map (Event.handlerEffect h) ++
            (Event.handlerEnd h :: (mainMenu env (env h w).world rest).events)) := by
        simpa using hx
      rw [afterReturns_started] at hx2
      simp only [afterReturns, List.mem_cons] at hx2
      rcases hx2 with hx2 | hx2
      · rw [hx2]
        exact (mainMenu_census env rest (env h w).world).2.2.1
      · exact ih _ x hx2
    · have hs : (loopBody env w r).state ≠ .running := by simp [hb]
      rw [mainMenu_cons_stopped env w r rest hs, hb] at hx
      have hx2 : x ∈ afterReturns
          ([Event.prompt, .answer (actionOf i), .handlerStart h] ++
            (env h w).effects.map (Event.handlerEffect h) ++ []) := by
        simpa using hx
      rw [afterReturns_started] at hx2
      simp [afterReturns] at hx2
    · have hs : (loopBody env w r).state ≠ .running := by simp [hb]
      rw [mainMenu_cons_stopped env w r rest hs, hb] at hx
      have hx2 : x ∈ afterReturns
          ([Event.prompt, .answer (actionOf i), .handlerStart h] ++
            (env h w).effects.map (Event.handlerEffect h) ++ []) := by
        simpa using hx
      rw [afterReturns_started] at hx2
      simp [afterReturns] at hx2

/-- The outside world after a run is what the called handlers made of it, in
call order: the loop itself changes nothing. -/
theorem mainMenu_world {σ : Type} (env : Env σ) :
    ∀ (script : List PromptResult) (w : σ),
      (mainMenu env w script).world =
        (invocations (mainMenu env w script).events).foldl (fun v h => (env h v).world) w := by
  intro script
  induction script with
  | nil => intro w; rw [mainMenu_nil]; rfl
  | cons r rest ih =>
    intro w
    rcases loopBody_cases env w r with ⟨e, -, hb⟩ | ⟨i, -, -, hb⟩ | ⟨i, h, -, -, -, -, hb⟩ |
      ⟨i, h, e, -, -, -, -, hb⟩ | ⟨i, h, -, -, -, -, hb⟩
    · have hs : (loopBody env w r).state ≠ .running := by simp [hb]
      rw [mainMenu_cons_stopped env w r rest hs, hb]
      rfl
    · have hs : (loopBody env w r).state ≠ .running := by simp [hb]
      rw [mainMenu_cons_stopped env w r rest hs, hb]
      rfl
    · have hs : (loopBody env w r).state = .running := by simp [hb]
      rw [mainMenu_cons_running env w r rest hs, hb]
      show _ = List.foldl _ w (invocations (_ ++ _))
      rw [invocations_append, invocations_round]
      exact ih (env h w).world
    · have hs : (loopBody env w r).state ≠ .running := by simp [hb]
      rw [mainMenu_cons_stopped env w r rest hs, hb]
      show _ = List.foldl _ w (invocations _)
      rw [invocations_started]
      rfl
    · have hs : (loopBody env w r).state ≠ .running := by simp [hb]
      rw [mainMenu_cons_stopped env w r rest hs, hb]
      show _ = List.foldl _ w (invocations _)
      rw [invocations_started]
      rfl

/-! ## Properties of the menu loop -/

/-- C2. From a reachable `running` state (the loop has consumed `pre` and is
waiting at the menu): an `exit` selection takes the loop to `exited` with no
handler called for it, the only further events being the answer and the
goodbye line, whatever follows in the script stays unread (no prompt, no
handler after); a selection other than `exit` whose handler returns leaves the
loop `running`; and `exited` is only ever reached by reading `exit` in state
`running`. -/
theorem C2_exit_transition {σ : Type} (env : Env σ) (w : σ) (pre : List PromptResult)
    (hrun : (mainMenu env w pre).state = .running) :
    (∀ i post, actionOf i = "exit" →
      (mainMenu env w (pre ++ .picked i :: post)).state = .exited ∧
      (mainMenu env w (pre ++ .picked i :: post)).events =
        (mainMenu env w pre).events ++ [.answer "exit", .goodbye] ∧
      invocations (mainMenu env w (pre ++ .picked i :: post)).events =
        invocations (mainMenu env w pre).events ∧
      promptCount (mainMenu env w (pre ++ .picked i :: post)).events =
        promptCount (mainMenu env w pre).events ∧
      (mainMenu env w (pre ++ .picked i :: post)).unread = post) ∧
    (∀ i h, actionOf i ≠ "exit" → commands (actionOf i) = some h →
      (env h (mainMenu env w pre).world).result = .returned →
      (mainMenu env w (pre ++ [.picked i])).state = .running ∧
      invocations (mainMenu env w (pre ++ [.picked i])).events =
        invocations (mainMenu env w pre).events ++ [h]) ∧
    (∀ script, (mainMenu env w script).state = .exited →
      ∃ used i, script = used ++ .picked i :: (mainMenu env w script).unread ∧
        actionOf i = "exit" ∧ (mainMenu env w used).state = .running) := by
  obtain ⟨-, hlast⟩ := mainMenu_running env pre w hrun
  refine ⟨?_, ?_, ?_⟩
  · intro i post hx
    have hb := loopBody_exit env (mainMenu env w pre).world i hx
    have hs : (loopBody env (mainMenu env w pre).world (.picked i)).state ≠ .running := by
      simp [hb]
    have hev : (mainMenu env w (pre ++ .picked i :: post)).events =
        (mainMenu env w pre).events ++ [.answer "exit", .goodbye] := by
      rw [mainMenu_append_running env _ pre w hrun, mainMenu_cons_stopped env _ _ _ hs, hb]
      conv_rhs => rw [hlast]
      simp
    refine ⟨?_, hev, ?_, ?_, ?_⟩
    · rw [mainMenu_append_running env _ pre w hrun, mainMenu_cons_stopped env _ _ _ hs, hb]
    · rw [hev, invocations_append]
      simp [invocations]
    · rw [hev, promptCount_append]
      simp [promptCount]
    · rw [mainMenu_append_running env _ pre w hrun, mainMenu_cons_stopped env _ _ _ hs]
  · intro i h hx hh hres
    have hb := loopBody_returned env (mainMenu env w pre).world i h hx hh hres
    have hs : (loopBody env (mainMenu env w pre).world (.picked i)).state = .running := by
      simp [hb]
    rw [mainMenu_append_running env _ pre w hrun, mainMenu_cons_running env _ _ _ hs, hb]
    refine ⟨rfl, ?_⟩
    show invocations (_ ++ (_ ++ _)) = _
    conv_rhs => rw [hlast]
    rw [invocations_append, invocations_append, invocations_round, invocations_append,
      mainMenu_nil]
    simp [invocations]
  · intro script hex
    have hne : (mainMenu env w script).state ≠ .running := by simp [hex]
    obtain ⟨used, r, h1, h2, h3, -, -⟩ := mainMenu_stopped_decomp env script w hne
    rw [hex] at h3
    obtain ⟨i, rfl, hx⟩ := loopBody_exited env _ r h3
    exact ⟨used, i, h1, hx, h2⟩

/-- C2 at a concrete state: after `add` has returned, the loop is `running`. -/
theorem C2_exit_transition_witness :
    (mainMenu quietEnv () [.picked 0]).state = .running ∧
    (∀ i post, actionOf i = "exit" →
      (mainMenu quietEnv () ([.picked 0] ++ .picked i :: post)).state = .exited ∧
      (mainMenu quietEnv () ([.picked 0] ++ .picked i :: post)).events =
        (mainMenu quietEnv () [.picked 0]).events ++ [.answer "exit", .goodbye] ∧
      invocations (mainMenu quietEnv () ([.picked 0] ++ .picked i :: post)).events =
        invocations (mainMenu quietEnv () [.picked 0]).events ∧
      promptCount (mainMenu quietEnv () ([.picked 0] ++ .picked i :: post)).events =
        promptCount (mainMenu quietEnv () [.picked 0]).events ∧
      (mainMenu quietEnv () ([.picked 0] ++ .picked i :: post)).unread = post) :=
  ⟨by decide, (C2_exit_transition quietEnv () [.picked 0] (by decide)).1⟩

/-- C3, as stated, fails: `tag` is neither a value of the menu nor a key of the
dispatch table, and the handler `manageTags` is not reached through it. -/
theorem C3_tag_is_not_an_action :
    "tag" ∉ menuValues ∧ "tag" ∉ commandKeys ∧ commands "tag" = none ∧
      commands "tag" ≠ some .manageTags := by
  decide

/-- C3, amended. The non-exit menu actions are exactly add, list, complete,
delete, stats, search, export, due and tags; these are exactly the keys of the
dispatch table, each occurring once; the table maps them to the nine handlers
as listed (tags to `manageTags`), and distinct actions go to distinct
handlers. -/
theorem C3_dispatch_table :
    menuValues.filter (fun v => v ≠ "exit") =
        ["add", "list", "complete", "delete", "stats", "search", "export", "due", "tags"] ∧
      commandKeys =
        ["add", "list", "complete", "delete", "stats", "search", "export", "due", "tags"] ∧
      commandKeys.Nodup ∧
      commandKeys.map commands =
        [some .addTask, some .listTasks, some .completeTask, some .deleteTask,
         some .showStatistics, some .searchTasks, some .exportTasks, some .listByDueDate,
         some .manageTags] ∧
      (commandKeys.map commands).Nodup := by
  decide

/-- C8. Every value the menu can return is `exit` or a key of the dispatch
table, so `commands[action]` is defined whenever the handler is called; and
every key of the dispatch table is the value of some menu entry other than
`Exit`. -/
theorem C8_menu_values_match_table :
    (∀ i : Fin 10, actionOf i = "exit" ∨ (commands (actionOf i)).isSome = true) ∧
      menuValues.all (fun v => v = "exit" ∨ v ∈ commandKeys) = true ∧
      menuValues.all (fun v => v = "exit" ∨ (commands v).isSome = true) = true ∧
      commandKeys.all (fun k => k ∈ menuValues ∧ k ≠ "exit") = true ∧
      commandKeys.all (fun k => decide (∃ i : Fin 10, actionOf i = k)) = true := by
  decide

/-- C5. When the loop ends through `exit` the exit status is 0 and nothing is
printed by the error handler. When `mainMenu` rejects with `e` (a menu prompt
fails, or the called handler throws) the status is 1: the run is the history
up to the failing pass, that pass, then the error being printed and
`process.exit(1)`, and nothing else; the rest of the script is never read, so
no prompt is presented and no handler is called or called again after the
failure. Status 0 arises only from `exit`, status 1 only from a rejection. -/
theorem C5_exit_codes {σ : Type} (env : Env σ) (w : σ) (script : List PromptResult) :
    ((mainMenu env w script).state = .exited →
      (program env w script).exitCode = some 0 ∧
      (program env w script).events = .banner :: (mainMenu env w script).events) ∧
    (∀ e, (mainMenu env w script).state = .rejected e →
      (program env w script).exitCode = some 1 ∧
      ∃ used r, script = used ++ r :: (program env w script).unread ∧
        (mainMenu env w used).state = .running ∧
        (loopBody env (mainMenu env w used).world r).state = .rejected e ∧
        (program env w script).events =
          .banner :: ((mainMenu env w used).events.dropLast ++
            (loopBody env (mainMenu env w used).world r).events) ++
            [.errorPrinted e, .processExit 1] ∧
        promptCount (program env w script).events = used.length + 1 ∧
        (invocations (program env w script).events).length ≤ used.length + 1) ∧
    (∀ e, (loopBody env w (.failed e)).state = .rejected e) ∧
    (∀ i h e, actionOf i ≠ "exit" → commands (actionOf i) = some h →
      (env h w).result = .threw e → (loopBody env w (.picked i)).state = .rejected e) ∧
    ((program env w script).exitCode = some 0 ↔ (mainMenu env w script).state = .exited) ∧
    ((program env w script).exitCode = some 1 ↔
      ∃ e, (mainMenu env w script).state = .rejected e) := by
  refine ⟨?_, ?_, ?_, ?_, ?_, ?_⟩
  · intro hex
    rw [program_exited env w script hex]
    exact ⟨rfl, rfl⟩
  · intro e hrej
    have hne : (mainMenu env w script).state ≠ .running := by simp [hrej]
    obtain ⟨used, r, h1, h2, h3, -, h5⟩ := mainMenu_stopped_decomp env script w hne
    obtain ⟨c1, c2⟩ := mainMenu_counts env script w
    have hlen := congrArg List.length h1
    rw [program_rejected env w script e hrej]
    refine ⟨rfl, used, r, h1, h2, ?_, ?_, ?_, ?_⟩
    · rw [h3, hrej]
    · show _ = _
      rw [h5]
    · show promptCount (_ :: _ ++ _) = _
      rw [List.cons_append, ← List.singleton_append, promptCount_append, promptCount_append]
      simp only [hrej, List.length_append, List.length_cons] at c1 hlen
      have e1 : promptCount [Event.banner] = 0 := rfl
      have e2 : promptCount [Event.errorPrinted e, Event.processExit 1] = 0 := rfl
      rw [e1, e2]
      simp only [reduceCtorEq, if_false] at c1
      omega
    · show (invocations (_ :: _ ++ _)).length ≤ _
      rw [List.cons_append, ← List.singleton_append, invocations_append, invocations_append]
      simp only [List.length_append, List.length_cons] at c2 hlen
      have e1 : invocations [Event.banner] = [] := rfl
      have e2 : invocations [Event.errorPrinted e, Event.processExit 1] = [] := rfl
      rw [e1, e2]
      simp only [List.nil_append, List.append_nil]
      omega
  · intro e
    rfl
  · intro i h e hx hh hres
    rw [loopBody_threw env w i h e hx hh hres]
  · cases hs : (mainMenu env w script).state with
    | running => rw [program_running env w script hs]; simp
    | exited => rw [program_exited env w script hs]; simp
    | rejected e => rw [program_rejected env w script e hs]; simp
    | suspended k => rw [program_suspended env w script k hs]; simp
  · cases hs : (mainMenu env w script).state with
    | running => rw [program_running env w script hs]; simp
    | exited => rw [program_exited env w script hs]; simp
    | rejected e => rw [program_rejected env w script e hs]; simp
    | suspended k => rw [program_suspended env w script k hs]; simp

/-- C5 at two concrete runs: list then exit ends with status 0; list, then a
delete that throws, ends with status 1 and leaves the rest of the script unread. -/
theorem C5_exit_codes_witness :
    (mainMenu strictEnv () [.picked 1, .picked 9]).state = .exited ∧
      (program strictEnv () [.picked 1, .picked 9]).exitCode = some 0 ∧
      (mainMenu strictEnv () [.picked 1, .picked 3, .picked 1]).state = .rejected .notFound ∧
      (program strictEnv () [.picked 1, .picked 3, .picked 1]).exitCode = some 1 :=
  ⟨by decide,
   ((C5_exit_codes strictEnv () [.picked 1, .picked 9]).1 (by decide)).1,
   by decide,
   ((C5_exit_codes strictEnv () [.picked 1, .picked 3, .picked 1]).2.1 .notFound
     (by decide)).1⟩

/-- C7, as stated, fails: in the run add, exit the return of `addTask` is
directly followed by the next prompt; the loop does nothing, and in particular
writes nothing to storage, between the two. -/
theorem C7_nothing_between_return_and_prompt :
    (mainMenu quietEnv () [.picked 0, .picked 9]).events =
        [.prompt, .answer "add", .handlerStart .addTask, .handlerEffect .addTask "done",
         .handlerEnd .addTask, .prompt, .answer "exit", .goodbye] ∧
      afterReturns (mainMenu quietEnv () [.picked 0, .picked 9]).events = [some .prompt] := by
  decide

/-- C7, amended. The menu loop holds no task collection and does no storage
work of its own: in every run the return of a handler is directly followed by
the next prompt, and the state of the outside world at the end of the run is
exactly what the called handlers made of it, in call order. Loading and
flushing the tasks is left to the handlers. -/
theorem C7_loop_does_no_storage_work {σ : Type} (env : Env σ) (w : σ)
    (script : List PromptResult) :
    (afterReturns (mainMenu env w script).events).all (fun x => x = some Event.prompt) = true ∧
      (mainMenu env w script).world =
        (invocations (mainMenu env w script).events).foldl (fun v h => (env h v).world) w := by
  refine ⟨?_, mainMenu_world env script w⟩
  rw [List.all_eq_true]
  intro x hx
  simpa using mainMenu_afterReturns env script w x hx

/-- C9. In every run the banner is printed exactly once and is the first
event, directly before the first prompt. The goodbye line is printed at most
once, and exactly once if and only if the loop ends through `exit`; it is then
the last event of the loop and of the run; it is not printed when the run ends
with an error. -/
theorem C9_banner_and_goodbye {σ : Type} (env : Env σ) (w : σ) (script : List PromptResult) :
    (∃ tl, (program env w script).events = .banner :: tl ∧ Event.banner ∉ tl ∧
        tl.head? = some .prompt) ∧
      List.count Event.banner (program env w script).events = 1 ∧
      List.count Event.goodbye (program env w script).events ≤ 1 ∧
      (List.count Event.goodbye (program env w script).events = 1 ↔
        (mainMenu env w script).state = .exited) ∧
      ((mainMenu env w script).state = .exited →
        (mainMenu env w script).events.getLast? = some .goodbye ∧
        (program env w script).events.getLast? = some .goodbye) ∧
      (∀ e, (mainMenu env w script).state = .rejected e →
        Event.goodbye ∉ (program env w script).events) := by
  obtain ⟨c1, c2, c3, c4⟩ := mainMenu_census env script w
  have hne := mainMenu_events_ne_nil env w script
  have hb0 : List.count Event.banner (mainMenu env w script).events = 0 :=
    List.count_eq_zero.mpr c2
  cases hs : (mainMenu env w script).state with
  | running =>
    rw [program_running env w script hs]
    rw [hs] at c1
    have c1 : List.count Event.goodbye (mainMenu env w script).events = 0 := by simpa using c1
    refine ⟨⟨_, rfl, c2, c3⟩, ?_, ?_, ?_, ?_, ?_⟩
    · simp [hb0]
    · simp [c1]
    · simp [c1]
    · intro hex; cases hex
    · intro e he; cases he
  | exited =>
    rw [program_exited env w script hs]
    rw [hs] at c1
    have c1 : List.count Event.goodbye (mainMenu env w script).events = 1 := by simpa using c1
    refine ⟨⟨_, rfl, c2, c3⟩, ?_, ?_, ?_, ?_, ?_⟩
    · simp [hb0]
    · simp [c1]
    · simp [c1]
    · intro _
      refine ⟨c4 hs, ?_⟩
      show List.getLast? ([Event.banner] ++ _) = _
      rw [List.getLast?_append_of_ne_nil _ hne]
      exact c4 hs
    · intro e he; cases he
  | rejected e =>
    rw [program_rejected env w script e hs]
    rw [hs] at c1
    have c1 : List.count Event.goodbye (mainMenu env w script).events = 0 := by simpa using c1
    have c1m : Event.goodbye ∉ (mainMenu env w script).events := List.count_eq_zero.mp c1
    refine ⟨⟨_, rfl, ?_, ?_⟩, ?_, ?_, ?_, ?_, ?_⟩
    · simp [c2]
    · show List.head? (_ ++ _) = _
      rw [List.head?_append_of_ne_nil _ hne]
      exact c3
    · simp [hb0, List.count_append]
    · simp [c1, List.count_append]
    · simp [c1, List.count_append]
    · intro hex; cases hex
    · intro e2 _
      simp [c1m]
  | suspended k =>
    rw [program_suspended env w script k hs]
    rw [hs] at c1
    have c1 : List.count Event.goodbye (mainMenu env w script).events = 0 := by simpa using c1
    refine ⟨⟨_, rfl, c2, c3⟩, ?_, ?_, ?_, ?_, ?_⟩
    · simp [hb0]
    · simp [c1]
    · simp [c1]
    · intro hex; cases hex
    · intro e he; cases he

/-- C9 at two concrete runs: one that ends through `exit`, one that ends with
an error. -/
theorem C9_banner_and_goodbye_witness :
    ((mainMenu strictEnv () [.picked 1, .picked 9]).state = .exited ∧
      (program strictEnv () [.picked 1, .picked 9]).events.getLast? = some .goodbye) ∧
    ((mainMenu strictEnv () [.picked 3]).state = .rejected .notFound ∧
      Event.goodbye ∉ (program strictEnv () [.picked 3]).events) :=
  ⟨⟨by decide,
    ((C9_banner_and_goodbye strictEnv () [.picked 1, .picked 9]).2.2.2.2.1 (by decide)).2⟩,
   ⟨by decide,
    (C9_banner_and_goodbye strictEnv () [.picked 3]).2.2.2.2.2 .notFound (by decide)⟩⟩

end TaskTracker
